import Mathlib

/-!
Verification of the condition-multiplexing wait-set primitive of the iceoryx
waitset trigger example (`iceoryx_examples/waitset/ice_waitset_trigger.cpp`).

The example class `MyTriggerClass` (its events, latches, `activate`,
`performAction`, `reset`, `attachToWaitset`, `unsetTrigger` and the consumer
dispatch loop) is embedded directly from the source file.  The `WaitSet`
(Registry) itself — its bounded slot table, `acquireTrigger`, trigger
release, teardown, and the blocking `wait` — is not part of the source tree,
so it is modelled from the specification (each such definition says so in
its doc comment).  Blocking and thread interleaving are modelled by the
level-triggered scan a waiter performs: each `wait` independently evaluates
every valid slot's predicate against the current origin states.
-/

namespace IceoryxWaitset

/-- Modelled from the spec: the error returned by `acquire` when the bounded
slot table has no free slot (`CapacityExceeded`). -/
inductive WaitSetError where
  | capacityExceeded
deriving DecidableEq

/-- Modelled from the spec: one registration record of the Registry — a
Trigger binds an origin (an index into the pool of origin states), a
predicate bound to the origin, an invalidation hook (called with the slot's
handle, mirroring how the native hook receives the Trigger being
invalidated), a group id, and an optional dispatch callback. -/
structure SlotData (σ : Type) where
  origin : Nat
  predicate : σ → Bool
  invalidationHook : Nat → σ → σ
  groupId : Nat
  dispatchCallback : Option (σ → σ)

/-- Modelled from the spec: the Registry (wait-set) is a fixed-capacity
ordered table of Trigger slots; a `none` entry is a free slot. The capacity
is the length of the table, fixed at construction. -/
structure Registry (σ : Type) where
  slots : List (Option (SlotData σ))

/-- Capacity N of the bounded table: fixed at construction, never grows. -/
def Registry.capacity {σ : Type} (r : Registry σ) : Nat := r.slots.length

/-- Modelled from the spec: a freshly constructed Registry of capacity `n`
with every slot free. -/
def emptyRegistry (σ : Type) (n : Nat) : Registry σ := ⟨List.replicate n none⟩

/-- Number of valid (occupied) slots of the table. -/
def countValid {σ : Type} (r : Registry σ) : Nat := r.slots.countP Option.isSome

/-- Index of the first free slot, if any. -/
def firstFree {σ : Type} : List (Option (SlotData σ)) → Option Nat
  | [] => none
  | none :: _ => some 0
  | some _ :: rest => (firstFree rest).map (· + 1)

/-- Modelled from the spec: `acquire` allocates the first free slot, marks it
valid with all fields stored, and returns its Handle (the slot index); when
no free slot exists it fails with `CapacityExceeded` and returns the table
unchanged. -/
def acquire {σ : Type} (r : Registry σ) (d : SlotData σ) :
    Registry σ × Except WaitSetError Nat :=
  match firstFree r.slots with
  | some i => (⟨r.slots.set i (some d)⟩, Except.ok i)
  | none => (r, Except.error WaitSetError.capacityExceeded)

/-- The registration stored under handle `h`, when `h` denotes a valid slot. -/
def slotAt {σ : Type} (r : Registry σ) (h : Nat) : Option (SlotData σ) :=
  match r.slots.get? h with
  | some (some d) => some d
  | _ => none

/-- Replace the element at index `i` by `f` of it; out-of-range is a no-op. -/
def modifyAt {σ : Type} (f : σ → σ) : Nat → List σ → List σ
  | _, [] => []
  | 0, x :: xs => f x :: xs
  | n + 1, x :: xs => x :: modifyAt f n xs

/-- Modelled from the spec: `release` of a Handle. If the slot is still
valid it invokes the invalidation hook on the origin and frees the slot;
releasing an already-released or unknown Handle is a no-op, never an
error. Returns the new table and the new pool of origin states. -/
def release {σ : Type} (r : Registry σ) (origins : List σ) (h : Nat) :
    Registry σ × List σ :=
  match slotAt r h with
  | some d => (⟨r.slots.set h none⟩, modifyAt (d.invalidationHook h) d.origin origins)
  | none => (r, origins)

/-- Evaluate a slot's predicate against the current state of its origin.
A dangling origin index evaluates to false. -/
def evalPred {σ : Type} (origins : List σ) (d : SlotData σ) : Bool :=
  match origins.get? d.origin with
  | some s => d.predicate s
  | none => false

/-- Whether slot `i` of the table is valid and currently satisfied. -/
def slotPred {σ : Type} (r : Registry σ) (origins : List σ) (i : Nat) : Bool :=
  match slotAt r i with
  | some d => evalPred origins d
  | none => false

/-- Modelled from the spec: the indices of the valid slots whose predicate
currently evaluates true, in registration (slot index) order. -/
def satisfiedIndices {σ : Type} (r : Registry σ) (origins : List σ) : List Nat :=
  (List.range r.capacity).filter (slotPred r origins)

/-- Transient per-wait result describing one currently-satisfied Trigger:
group id, typed origin access, and the dispatch-callback snapshot. -/
structure TriggerState (σ : Type) where
  groupId : Nat
  origin : Nat
  dispatchCallback : Option (σ → σ)

/-- The `TriggerState` produced for a satisfied slot. -/
def mkState {σ : Type} (d : SlotData σ) : TriggerState σ :=
  { groupId := d.groupId, origin := d.origin, dispatchCallback := d.dispatchCallback }

/-- Modelled from the spec: the scan a waiter performs on each (re-)wake of
`wait` — re-evaluate every valid slot's predicate and collect the satisfied
slots as TriggerStates in slot-index order. A blocking `wait` returns the
first non-empty scan result. -/
def waitScan {σ : Type} (r : Registry σ) (origins : List σ) : List (TriggerState σ) :=
  (satisfiedIndices r origins).filterMap (fun i => (slotAt r i).map mkState)

/-- Modelled from the spec: the outcome of the bounded `wait` variant —
either an ordered sequence of TriggerStates or a distinct `Timeout` value. -/
inductive WaitResult (σ : Type) where
  | results : List (TriggerState σ) → WaitResult σ
  | timeout : WaitResult σ

/-- Modelled from the spec: bounded `wait`. When the bound expires with no
valid slot's predicate true, it returns `Timeout`; otherwise it returns the
non-empty satisfied set of the scan. -/
def timedWait {σ : Type} (r : Registry σ) (origins : List σ) : WaitResult σ :=
  match waitScan r origins with
  | [] => WaitResult.timeout
  | ts => WaitResult.results ts

/-- Modelled from the spec: Registry teardown performs `release` on every
slot index before the table is discarded. -/
def teardown {σ : Type} (r : Registry σ) (origins : List σ) : Registry σ × List σ :=
  (List.range r.capacity).foldl (fun p i => release p.1 p.2 i) (r, origins)

/-- The invalidation hooks of the still-valid slots of a table, applied to
the origin pool in slot-index order, starting at slot index `i`. -/
def hookFrom {σ : Type} : Nat → List (Option (SlotData σ)) → List σ → List σ
  | _, [], origins => origins
  | i, none :: rest, origins => hookFrom (i + 1) rest origins
  | i, some d :: rest, origins =>
      hookFrom (i + 1) rest (modifyAt (d.invalidationHook i) d.origin origins)

end IceoryxWaitset

namespace IceoryxWaitset

/-! ## The example's triggerable class, embedded from the source.

`MyTriggerClass` offers the two events `PERFORMED_ACTION` (underlying enum
value 0) and `ACTIVATE` (underlying enum value 1).  Its two stored
`iox::popo::Trigger` members are modelled as the optional Handle of the
acquired registration (`none` = invalid / reset trigger). -/

/-- Underlying integer value of `MyTriggerClassEvents::PERFORMED_ACTION`. -/
def PERFORMED_ACTION : Nat := 0

/-- Underlying integer value of `MyTriggerClassEvents::ACTIVATE`. -/
def ACTIVATE : Nat := 1

/-- The state of `MyTriggerClass`: activation code, the two event latches,
and the two stored triggers. -/
structure MyTriggerClass where
  m_activationCode : Int
  m_hasPerformedAction : Bool
  m_isActivated : Bool
  m_actionTrigger : Option Nat
  m_activateTrigger : Option Nat
deriving DecidableEq

/-- A default-constructed `MyTriggerClass`. -/
def MyTriggerClass.init : MyTriggerClass :=
  { m_activationCode := 0
    m_hasPerformedAction := false
    m_isActivated := false
    m_actionTrigger := none
    m_activateTrigger := none }

/-- `MyTriggerClass::activate`: stores the activation code and latches the
ACTIVATE event (the accompanying `m_activateTrigger.trigger()` wake-signal
notification is modelled at the system level by `signalActivate`). -/
def MyTriggerClass.activate (c : MyTriggerClass) (activationCode : Int) : MyTriggerClass :=
  { c with m_activationCode := activationCode, m_isActivated := true }

/-- `MyTriggerClass::performAction`: latches the PERFORMED_ACTION event
(the accompanying `m_actionTrigger.trigger()` notification is modelled at
the system level by `signalAction`). -/
def MyTriggerClass.performAction (c : MyTriggerClass) : MyTriggerClass :=
  { c with m_hasPerformedAction := true }

/-- `MyTriggerClass::getActivationCode`. -/
def MyTriggerClass.getActivationCode (c : MyTriggerClass) : Int := c.m_activationCode

/-- `MyTriggerClass::hasPerformedAction`: the predicate the action trigger
asks. -/
def MyTriggerClass.hasPerformedAction (c : MyTriggerClass) : Bool := c.m_hasPerformedAction

/-- `MyTriggerClass::isActivated`: the predicate the activate trigger asks. -/
def MyTriggerClass.isActivated (c : MyTriggerClass) : Bool := c.m_isActivated

/-- `MyTriggerClass::reset`: resets the PERFORMED_ACTION and the ACTIVATE
event latches. -/
def MyTriggerClass.reset (c : MyTriggerClass) : MyTriggerClass :=
  { c with m_hasPerformedAction := false, m_isActivated := false }

/-- `MyTriggerClass::unsetTrigger`: the invalidation hook handed to the
waitset — compares the invalidated trigger against the stored
`m_actionTrigger` and then `m_activateTrigger` and resets the matching
member. -/
def MyTriggerClass.unsetTrigger (c : MyTriggerClass) (h : Nat) : MyTriggerClass :=
  if c.m_actionTrigger = some h then { c with m_actionTrigger := none }
  else if c.m_activateTrigger = some h then { c with m_activateTrigger := none }
  else c

/-- The registration `attachToWaitset` performs for the PERFORMED_ACTION
event: predicate `hasPerformedAction`, invalidation hook `unsetTrigger`. -/
def actionSlotData (selfIdx : Nat) (triggerId : Nat)
    (callback : Option (MyTriggerClass → MyTriggerClass)) : SlotData MyTriggerClass :=
  { origin := selfIdx
    predicate := MyTriggerClass.hasPerformedAction
    invalidationHook := fun h c => MyTriggerClass.unsetTrigger c h
    groupId := triggerId
    dispatchCallback := callback }

/-- The registration `attachToWaitset` performs for the ACTIVATE event:
predicate `isActivated`, invalidation hook `unsetTrigger`. -/
def activateSlotData (selfIdx : Nat) (triggerId : Nat)
    (callback : Option (MyTriggerClass → MyTriggerClass)) : SlotData MyTriggerClass :=
  { origin := selfIdx
    predicate := MyTriggerClass.isActivated
    invalidationHook := fun h c => MyTriggerClass.unsetTrigger c h
    groupId := triggerId
    dispatchCallback := callback }

/-- `MyTriggerClass::attachToWaitset`: switches on the event's underlying
integer value; for PERFORMED_ACTION (0) and ACTIVATE (1) it forwards the
waitset's `acquireTrigger` outcome, storing the acquired trigger in the
corresponding member on success; any other event value falls through the
switch and returns success without touching anything. `selfIdx` is the
index of `this` in the origin pool. -/
def attachToWaitset (selfIdx : Nat) (c : MyTriggerClass) (waitset : Registry MyTriggerClass)
    (event : Nat) (triggerId : Nat) (callback : Option (MyTriggerClass → MyTriggerClass)) :
    MyTriggerClass × Registry MyTriggerClass × Except WaitSetError Unit :=
  match event with
  | 0 =>
    match acquire waitset (actionSlotData selfIdx triggerId callback) with
    | (w2, Except.ok h) => ({ c with m_actionTrigger := some h }, w2, Except.ok ())
    | (w2, Except.error e) => (c, w2, Except.error e)
  | 1 =>
    match acquire waitset (activateSlotData selfIdx triggerId callback) with
    | (w2, Except.ok h) => ({ c with m_activateTrigger := some h }, w2, Except.ok ())
    | (w2, Except.error e) => (c, w2, Except.error e)
  | _ => (c, waitset, Except.ok ())

/-! ## System level: origins, wake signal, producer signalling, dispatch. -/

/-- The state shared between producers and the waiter: the registry table,
the pool of origin states, the shared wake signal, and a log of the group
ids whose dispatch callback has been invoked (by the consumer only). -/
structure SystemState where
  registry : Registry MyTriggerClass
  origins : List MyTriggerClass
  wake : Bool
  dispatchLog : List Nat

/-- Producer-side signal of the ACTIVATE event on origin `idx`: the origin's
own `activate` flips its latch and the stored trigger notifies the shared
wake signal (the notification is modelled from the spec; the latch flip is
`MyTriggerClass.activate` from the source). No predicate is evaluated, no
callback invoked, no table slot touched. -/
def signalActivate (s : SystemState) (idx : Nat) (code : Int) : SystemState :=
  { s with origins := modifyAt (fun c => MyTriggerClass.activate c code) idx s.origins
           wake := true }

/-- Producer-side signal of the PERFORMED_ACTION event on origin `idx`,
analogous to `signalActivate`. -/
def signalAction (s : SystemState) (idx : Nat) : SystemState :=
  { s with origins := modifyAt MyTriggerClass.performAction idx s.origins
           wake := true }

/-- Consumer-side dispatch of one TriggerState (`triggerState()` in the
background thread): invokes the stored callback on the origin and records
the dispatched group id. -/
def dispatchTrigger (s : SystemState) (ts : TriggerState MyTriggerClass) : SystemState :=
  match ts.dispatchCallback with
  | some cb =>
      { s with origins := modifyAt cb ts.origin s.origins
               dispatchLog := s.dispatchLog ++ [ts.groupId] }
  | none => s

/-- One iteration of the background thread's per-TriggerState handling:
dispatch, then `getOrigin<MyTriggerClass>()->reset()`. -/
def consumerStep (s : SystemState) (ts : TriggerState MyTriggerClass) : SystemState :=
  let s1 := dispatchTrigger s ts
  { s1 with origins := modifyAt MyTriggerClass.reset ts.origin s1.origins }

/-- Registering `ds` one after the other, collecting each outcome. -/
def acquireSeq {σ : Type} : Registry σ → List (SlotData σ) →
    Registry σ × List (Except WaitSetError Nat)
  | r, [] => (r, [])
  | r, d :: ds =>
    let step := acquire r d
    let rest := acquireSeq step.1 ds
    (rest.1, step.2 :: rest.2)

/-- The handles `start, start+1, …, start+n-1`, each wrapped as a success. -/
def okRange (start n : Nat) : List (Except WaitSetError Nat) :=
  (List.range n).map (fun j => Except.ok (start + j))

/-! The concrete two-origin scenario of the spec (origins A and B, group
ids 0 and 1, built through the source's `attachToWaitset`). -/

/-- Origin A attached to a fresh capacity-2 waitset via the ACTIVATE event
with group id 0. -/
def attachA : MyTriggerClass × Registry MyTriggerClass × Except WaitSetError Unit :=
  attachToWaitset 0 MyTriggerClass.init (emptyRegistry MyTriggerClass 2) ACTIVATE 0 none

/-- Origin B attached to the same waitset via the ACTIVATE event with group
id 1. -/
def attachB : MyTriggerClass × Registry MyTriggerClass × Except WaitSetError Unit :=
  attachToWaitset 1 MyTriggerClass.init attachA.2.1 ACTIVATE 1 none

/-- The scenario registry holding A's and B's registrations. -/
def scenarioRegistry : Registry MyTriggerClass := attachB.2.1

/-- Origin pool after `signal` (activate) on A only. -/
def originsSignalled : List MyTriggerClass := [attachA.1.activate 1, attachB.1]

/-- Origin pool after the consumer dispatched A and reset its latch. -/
def originsReset : List MyTriggerClass := [(attachA.1.activate 1).reset, attachB.1]

end IceoryxWaitset

namespace IceoryxWaitset

/-! ## Basic helper lemmas. -/

theorem modifyAt_get_self {σ : Type} (f : σ → σ) :
    ∀ (i : Nat) (l : List σ), (modifyAt f i l).get? i = (l.get? i).map f := by
  intro i l
  induction l generalizing i with
  | nil => cases i <;> simp [modifyAt]
  | cons x xs ih =>
    cases i with
    | zero => simp [modifyAt]
    | succ n => simpa [modifyAt] using ih n

theorem modifyAt_get_other {σ : Type} (f : σ → σ) :
    ∀ (i j : Nat) (l : List σ), j ≠ i → (modifyAt f i l).get? j = l.get? j := by
  intro i j l
  induction l generalizing i j with
  | nil => intro _; cases i <;> simp [modifyAt]
  | cons x xs ih =>
    intro hne
    cases i with
    | zero =>
      cases j with
      | zero => exact absurd rfl hne
      | succ m => simp [modifyAt]
    | succ n =>
      cases j with
      | zero => simp [modifyAt]
      | succ m =>
        have : m ≠ n := fun h => hne (by simp [h])
        simpa [modifyAt] using ih n m this

theorem set_none_get_self {σ : Type} :
    ∀ (l : List (Option (SlotData σ))) (n : Nat),
      ((l.set n (none : Option (SlotData σ))).get? n).getD none = none := by
  intro l
  induction l with
  | nil => intro n; cases n <;> simp
  | cons x xs ih =>
    intro n
    cases n with
    | zero => simp
    | succ m => simpa using ih m

theorem slotAt_set_none {σ : Type} (r : Registry σ) (h : Nat) :
    slotAt (⟨r.slots.set h none⟩ : Registry σ) h = none := by
  unfold slotAt
  have := set_none_get_self (σ := σ) r.slots h
  cases heq : (r.slots.set h (none : Option (SlotData σ))).get? h with
  | none => simp
  | some o =>
    rw [heq] at this
    simp at this
    simp [this]

/-- Claim C2: `release` is idempotent — releasing an unknown or
already-released Handle leaves the registry table and the origin pool
unchanged and is not an error, and in particular releasing the same handle
a second time is always a no-op (the invalidation hook runs at most once). -/
theorem release_idempotent {σ : Type} (r : Registry σ) (origins : List σ) (h : Nat) :
    (slotAt r h = none → release r origins h = (r, origins))
    ∧ release (release r origins h).1 (release r origins h).2 h = release r origins h := by
  constructor
  · intro hnone
    unfold release
    rw [hnone]
  · cases hs : slotAt r h with
    | none =>
      have h1 : release r origins h = (r, origins) := by unfold release; rw [hs]
      rw [h1]
      unfold release
      rw [hs]
    | some d =>
      have h1 : release r origins h
          = (⟨r.slots.set h none⟩, modifyAt (d.invalidationHook h) d.origin origins) := by
        unfold release; rw [hs]
      rw [h1]
      have h2 : slotAt (⟨r.slots.set h none⟩ : Registry σ) h = none := slotAt_set_none r h
      unfold release
      rw [h2]

/-- Claim C2 witness: a concrete double release — registry of capacity 1
holding one registration; releasing handle 0 twice equals releasing it
once, and releasing the stale handle 5 is an exact no-op. -/
theorem release_idempotent_witness :
    (release
        (release (acquire (emptyRegistry MyTriggerClass 1) (activateSlotData 0 0 none)).1
          [MyTriggerClass.init] 0).1
        (release (acquire (emptyRegistry MyTriggerClass 1) (activateSlotData 0 0 none)).1
          [MyTriggerClass.init] 0).2 0
      = release (acquire (emptyRegistry MyTriggerClass 1) (activateSlotData 0 0 none)).1
          [MyTriggerClass.init] 0)
    ∧ release (acquire (emptyRegistry MyTriggerClass 1) (activateSlotData 0 0 none)).1
        [MyTriggerClass.init] 5
      = ((acquire (emptyRegistry MyTriggerClass 1) (activateSlotData 0 0 none)).1,
        [MyTriggerClass.init]) := by
  refine ⟨(release_idempotent _ _ 0).2, (release_idempotent _ _ 5).1 rfl⟩

/-- Claim C5: producer-side `signal` (the example's `activate`, whose
trigger notifies the shared wake signal) flips the origin-owned latch to
true and raises the wake signal; it modifies no registry-table state,
invokes no dispatch callback (the dispatch log is untouched), touches no
other origin, and the latch stays true under any further producer-side
signalling — only the consumer's `reset` clears it. -/
theorem signal_effect (s : SystemState) (idx : Nat) (code : Int) :
    (signalActivate s idx code).registry = s.registry
    ∧ (signalActivate s idx code).dispatchLog = s.dispatchLog
    ∧ (signalActivate s idx code).wake = true
    ∧ ((signalActivate s idx code).origins.get? idx).map MyTriggerClass.isActivated
        = (s.origins.get? idx).map (fun _ => true)
    ∧ (∀ j, j ≠ idx → (signalActivate s idx code).origins.get? j = s.origins.get? j)
    ∧ (∀ c : MyTriggerClass, c.isActivated = true →
        (c.activate code).isActivated = true ∧ (c.performAction).isActivated = true)
    ∧ (∀ r2 : Registry MyTriggerClass,
        (signalActivate { s with registry := r2 } idx code).origins
          = (signalActivate s idx code).origins) := by
  refine ⟨rfl, rfl, rfl, ?_, ?_, ?_, fun _ => rfl⟩
  · show ((modifyAt (fun c => MyTriggerClass.activate c code) idx s.origins).get? idx).map _ = _
    rw [modifyAt_get_self]
    cases s.origins.get? idx <;> rfl
  · intro j hj
    exact modifyAt_get_other _ idx j s.origins hj
  · intro c hc
    exact ⟨rfl, hc⟩

/-- Claim C5 witness: signalling ACTIVATE on origin 0 of a one-origin
system leaves registry and dispatch log unchanged, raises the wake signal,
and latches the origin. -/
theorem signal_effect_witness :
    (signalActivate ⟨emptyRegistry MyTriggerClass 1, [MyTriggerClass.init], false, []⟩ 0 7).registry
        = (⟨emptyRegistry MyTriggerClass 1, [MyTriggerClass.init], false, []⟩ : SystemState).registry
    ∧ (signalActivate ⟨emptyRegistry MyTriggerClass 1, [MyTriggerClass.init], false, []⟩ 0 7).dispatchLog
        = (⟨emptyRegistry MyTriggerClass 1, [MyTriggerClass.init], false, []⟩ : SystemState).dispatchLog
    ∧ (signalActivate ⟨emptyRegistry MyTriggerClass 1, [MyTriggerClass.init], false, []⟩ 0 7).wake = true
    ∧ ((signalActivate ⟨emptyRegistry MyTriggerClass 1, [MyTriggerClass.init], false, []⟩ 0 7).origins.get? 0).map
          MyTriggerClass.isActivated
        = ((⟨emptyRegistry MyTriggerClass 1, [MyTriggerClass.init], false, []⟩ : SystemState).origins.get? 0).map
          (fun _ => true)
    ∧ (∀ j, j ≠ 0 →
        (signalActivate ⟨emptyRegistry MyTriggerClass 1, [MyTriggerClass.init], false, []⟩ 0 7).origins.get? j
          = (⟨emptyRegistry MyTriggerClass 1, [MyTriggerClass.init], false, []⟩ : SystemState).origins.get? j)
    ∧ (∀ c : MyTriggerClass, c.isActivated = true →
        (c.activate 7).isActivated = true ∧ (c.performAction).isActivated = true)
    ∧ (∀ r2 : Registry MyTriggerClass,
        (signalActivate { (⟨emptyRegistry MyTriggerClass 1, [MyTriggerClass.init], false, []⟩ : SystemState) with
            registry := r2 } 0 7).origins
          = (signalActivate ⟨emptyRegistry MyTriggerClass 1, [MyTriggerClass.init], false, []⟩ 0 7).origins) :=
  signal_effect ⟨emptyRegistry MyTriggerClass 1, [MyTriggerClass.init], false, []⟩ 0 7

/-! ## Registration up to capacity. -/

theorem firstFree_map_some_append {σ : Type} (l : List (SlotData σ))
    (rest : List (Option (SlotData σ))) :
    firstFree (l.map some ++ rest) = (firstFree rest).map (· + l.length) := by
  induction l with
  | nil =>
    simp only [List.map_nil, List.nil_append, List.length_nil]
    cases firstFree rest <;> simp
  | cons d l ih =>
    simp only [List.map_cons, List.cons_append, firstFree, List.length_cons,
      List.append_eq]
    rw [ih]
    cases firstFree rest <;> simp [Nat.add_assoc]

theorem firstFree_full {σ : Type} (l : List (SlotData σ)) :
    firstFree (l.map some) = none := by
  have h := firstFree_map_some_append l []
  rw [List.append_nil] at h
  simp [firstFree] at h
  exact h

theorem set_append_length {α : Type} (a : List α) (b : List α) (v : α) :
    (a ++ b).set a.length v = a ++ b.set 0 v := by
  induction a with
  | nil => rfl
  | cons x xs ih => simp [List.set, ih]

theorem okRange_succ (s n : Nat) :
    okRange s (n + 1) = Except.ok s :: okRange (s + 1) n := by
  unfold okRange
  rw [List.range_succ_eq_map]
  simp only [List.map_cons, List.map_map, Nat.add_zero]
  refine congrArg _ ?_
  refine congrArg (List.map · (List.range n)) ?_
  funext j
  exact congrArg Except.ok (by omega)

theorem acquire_into_free {σ : Type} (done : List (SlotData σ)) (f : Nat) (d : SlotData σ) :
    acquire (⟨done.map some ++ List.replicate (f + 1) none⟩ : Registry σ) d
      = (⟨(done ++ [d]).map some ++ List.replicate f none⟩, Except.ok done.length) := by
  have hff : firstFree (done.map some ++ List.replicate (f + 1) (none : Option (SlotData σ)))
      = some done.length := by
    rw [firstFree_map_some_append, List.replicate_succ]
    simp [firstFree]
  have hset : (done.map some ++ List.replicate (f + 1) (none : Option (SlotData σ))).set
        done.length (some d)
      = (done ++ [d]).map some ++ List.replicate f none := by
    have hl : done.length = (done.map some).length := (List.length_map _ _).symm
    rw [hl, set_append_length, List.replicate_succ]
    simp [List.set]
  unfold acquire
  rw [hff]
  show (({ slots := (done.map some ++ List.replicate (f + 1) none).set done.length (some d) } :
      Registry σ), (Except.ok done.length : Except WaitSetError Nat))
    = (⟨(done ++ [d]).map some ++ List.replicate f none⟩, Except.ok done.length)
  rw [hset]

theorem acquireSeq_filled {σ : Type} :
    ∀ (ds done : List (SlotData σ)) (free : Nat), ds.length ≤ free →
      acquireSeq (⟨done.map some ++ List.replicate free none⟩ : Registry σ) ds
      = (⟨(done ++ ds).map some ++ List.replicate (free - ds.length) none⟩,
         okRange done.length ds.length) := by
  intro ds
  induction ds with
  | nil => intro done free _; simp [acquireSeq, okRange]
  | cons d ds ih =>
    intro done free hle
    obtain ⟨f, rfl⟩ : ∃ f, free = f + 1 := ⟨free - 1, by simp at hle; omega⟩
    have hlen : ds.length ≤ f := by simp at hle; omega
    simp only [acquireSeq, acquire_into_free]
    rw [ih (done ++ [d]) f hlen]
    simp only [List.length_append, List.length_cons, List.length_nil]
    rw [okRange_succ]
    have hsub : f + 1 - (ds.length + 1) = f - ds.length := by omega
    simp [hsub, List.append_assoc]

theorem acquireSeq_append {σ : Type} (xs ys : List (SlotData σ)) :
    ∀ r : Registry σ, acquireSeq r (xs ++ ys)
      = ((acquireSeq (acquireSeq r xs).1 ys).1,
         (acquireSeq r xs).2 ++ (acquireSeq (acquireSeq r xs).1 ys).2) := by
  induction xs with
  | nil => intro r; simp [acquireSeq]
  | cons d xs ih => intro r; simp [acquireSeq, ih]

theorem acquireSeq_single {σ : Type} (r : Registry σ) (d : SlotData σ) :
    acquireSeq r [d] = ((acquire r d).1, [(acquire r d).2]) := rfl

theorem acquire_full {σ : Type} (l : List (SlotData σ)) (d : SlotData σ) :
    acquire (⟨l.map some⟩ : Registry σ) d
      = (⟨l.map some⟩, Except.error WaitSetError.capacityExceeded) := by
  unfold acquire
  rw [firstFree_full]

theorem countValid_map_some {σ : Type} (l : List (SlotData σ)) :
    countValid (⟨l.map some⟩ : Registry σ) = l.length := by
  unfold countValid
  induction l with
  | nil => rfl
  | cons d l ih => simp [List.countP_cons, ih]

/-- Claim C1: from an empty Registry of capacity N, each of the first N
registrations succeeds returning the Handles 0,…,N−1; the (N+1)-th acquire
fails with CapacityExceeded and leaves the table unchanged — the final
table equals the table after the N successful acquires, each slot holds
exactly the data that was registered into it (no field modified), and
exactly N valid entries remain. -/
theorem acquire_capacity {σ : Type} (N : Nat) (ds : List (SlotData σ))
    (h : ds.length = N + 1) :
    (acquireSeq (emptyRegistry σ N) ds).2
        = okRange 0 N ++ [Except.error WaitSetError.capacityExceeded]
    ∧ (acquireSeq (emptyRegistry σ N) ds).1
        = (acquireSeq (emptyRegistry σ N) (ds.take N)).1
    ∧ (acquireSeq (emptyRegistry σ N) ds).1.slots = (ds.take N).map some
    ∧ countValid (acquireSeq (emptyRegistry σ N) ds).1 = N := by
  obtain ⟨dlast, hdrop⟩ : ∃ d, ds.drop N = [d] :=
    List.length_eq_one.mp (by rw [List.length_drop]; omega)
  have htake : (ds.take N).length = N := by rw [List.length_take]; omega
  have hN : acquireSeq (emptyRegistry σ N) (ds.take N)
      = (⟨(ds.take N).map some⟩, okRange 0 N) := by
    have hinv := acquireSeq_filled (ds.take N) [] N (le_of_eq htake)
    simp only [List.nil_append, List.length_nil, htake, Nat.sub_self,
      List.replicate_zero, List.append_nil, List.map_nil] at hinv
    exact hinv
  have hfail : acquireSeq (⟨(ds.take N).map some⟩ : Registry σ) [dlast]
      = (⟨(ds.take N).map some⟩, [Except.error WaitSetError.capacityExceeded]) := by
    rw [acquireSeq_single, acquire_full]
  have hsplit : ds = ds.take N ++ [dlast] := by rw [← hdrop, List.take_append_drop]
  have hmain : acquireSeq (emptyRegistry σ N) ds
      = (⟨(ds.take N).map some⟩,
         okRange 0 N ++ [Except.error WaitSetError.capacityExceeded]) := by
    conv_lhs => rw [hsplit]
    rw [acquireSeq_append, hN]
    rw [hfail]
  refine ⟨by rw [hmain], by rw [hmain, hN], by rw [hmain], ?_⟩
  rw [hmain]
  rw [show countValid (⟨(ds.take N).map some⟩ : Registry σ) = (ds.take N).length from
    countValid_map_some _]
  exact htake

/-- Claim C1 witness: capacity 2, three concrete registrations — the first
two succeed with handles 0 and 1, the third fails with CapacityExceeded,
the table keeps exactly the two registered slots and 2 valid entries. -/
theorem acquire_capacity_witness :
    ([activateSlotData 0 0 none, activateSlotData 1 1 none,
        actionSlotData 0 2 none].length = 2 + 1)
    ∧ ((acquireSeq (emptyRegistry MyTriggerClass 2)
          [activateSlotData 0 0 none, activateSlotData 1 1 none,
            actionSlotData 0 2 none]).2
        = okRange 0 2 ++ [Except.error WaitSetError.capacityExceeded]
      ∧ (acquireSeq (emptyRegistry MyTriggerClass 2)
          [activateSlotData 0 0 none, activateSlotData 1 1 none,
            actionSlotData 0 2 none]).1
        = (acquireSeq (emptyRegistry MyTriggerClass 2)
            ([activateSlotData 0 0 none, activateSlotData 1 1 none,
              actionSlotData 0 2 none].take 2)).1
      ∧ (acquireSeq (emptyRegistry MyTriggerClass 2)
          [activateSlotData 0 0 none, activateSlotData 1 1 none,
            actionSlotData 0 2 none]).1.slots
        = ([activateSlotData 0 0 none, activateSlotData 1 1 none,
            actionSlotData 0 2 none].take 2).map some
      ∧ countValid (acquireSeq (emptyRegistry MyTriggerClass 2)
          [activateSlotData 0 0 none, activateSlotData 1 1 none,
            actionSlotData 0 2 none]).1 = 2) :=
  ⟨rfl, acquire_capacity 2
    [activateSlotData 0 0 none, activateSlotData 1 1 none, actionSlotData 0 2 none] rfl⟩

/-- Claim C4: no stale or false positives — every TriggerState contained in
the set returned by the wait scan stems from a valid slot whose predicate
evaluates true at the instant the scan returns. -/
theorem wait_no_false_positive {σ : Type} (r : Registry σ) (origins : List σ)
    (ts : TriggerState σ) (hts : ts ∈ waitScan r origins) :
    ∃ i d, slotAt r i = some d ∧ evalPred origins d = true ∧ ts = mkState d := by
  unfold waitScan at hts
  rcases List.mem_filterMap.mp hts with ⟨i, hi, hmap⟩
  rcases Option.map_eq_some'.mp hmap with ⟨d, hd, hmk⟩
  refine ⟨i, d, hd, ?_, hmk.symm⟩
  have hp : slotPred r origins i = true := (List.mem_filter.mp hi).2
  unfold slotPred at hp
  rw [hd] at hp
  exact hp

/-- Claim C6: the wait scan's result is ordered by registration order — the
satisfied slot indices form a strictly increasing subsequence of the table's
index range (stable, deterministic, not priority-weighted), and the returned
TriggerStates are exactly those slots' states in that order. -/
theorem wait_result_ordered {σ : Type} (r : Registry σ) (origins : List σ) :
    List.Pairwise (· < ·) (satisfiedIndices r origins)
    ∧ List.Sublist (satisfiedIndices r origins) (List.range r.capacity)
    ∧ waitScan r origins
        = (satisfiedIndices r origins).filterMap (fun i => (slotAt r i).map mkState) := by
  refine ⟨?_, List.filter_sublist _, rfl⟩
  exact (List.pairwise_lt_range _).filter _

/-- Claim C8: the bounded wait variant returns `Timeout` exactly when no
valid slot's predicate holds, otherwise the non-empty satisfied set — and
`Timeout` is a value distinct from an empty result set, so expiry of the
bound is distinguishable from a wake that produced no satisfied Trigger. -/
theorem timedWait_timeout_distinct (σ : Type) :
    (∀ (r : Registry σ) (origins : List σ),
      (timedWait r origins = WaitResult.timeout ↔ waitScan r origins = [])
      ∧ (waitScan r origins ≠ [] →
          timedWait r origins = WaitResult.results (waitScan r origins)))
    ∧ (WaitResult.timeout : WaitResult σ) ≠ WaitResult.results [] := by
  refine ⟨?_, fun h => WaitResult.noConfusion h⟩
  intro r origins
  cases h : waitScan r origins with
  | nil => simp [timedWait, h]
  | cons a t => simp [timedWait, h]

theorem filter_range_singleton (p : Nat → Bool) :
    ∀ (n i : Nat), i < n → p i = true → (∀ j, j < n → j ≠ i → p j = false) →
      (List.range n).filter p = [i] := by
  intro n
  induction n with
  | zero => intro i hi; exact absurd hi (Nat.not_lt_zero i)
  | succ m ih =>
    intro i hi hpi hothers
    rw [List.range_succ, List.filter_append]
    by_cases him : i = m
    · subst him
      have hfil : (List.range i).filter p = [] := by
        rw [List.filter_eq_nil_iff]
        intro j hj
        have hji : j < i := List.mem_range.mp hj
        simp [hothers j (by omega) (by omega)]
      rw [hfil]
      simp [hpi]
    · have him2 : i < m := by omega
      rw [ih i him2 hpi (fun j hj hne => hothers j (by omega) hne)]
      have hm : p m = false := hothers m (by omega) (fun heq => him heq.symm)
      simp [hm]

theorem slotAt_lt_capacity {σ : Type} (r : Registry σ) (i : Nat) (d : SlotData σ)
    (hd : slotAt r i = some d) : i < r.capacity := by
  by_contra hge
  have hnone : r.slots.get? i = none :=
    List.get?_eq_none.mpr (by unfold Registry.capacity at hge; omega)
  unfold slotAt at hd
  rw [hnone] at hd
  exact Option.noConfusion hd

/-- Claim C3: when exactly one registered Trigger is satisfied (its latch
signalled) and every other slot's predicate is false, the wait scan returns
exactly that Trigger's group id and no other; and whenever no predicate
holds (e.g. after the consumer reset the latch and no new signal arrived),
the bounded wait returns `Timeout`. -/
theorem wait_single_signalled {σ : Type} (r : Registry σ) (origins : List σ)
    (i : Nat) (d : SlotData σ) (hd : slotAt r i = some d)
    (hp : evalPred origins d = true)
    (hothers : ∀ j, j ≠ i → slotPred r origins j = false) :
    (waitScan r origins).map TriggerState.groupId = [d.groupId]
    ∧ ∀ origins2 : List σ, (∀ j, slotPred r origins2 j = false) →
        timedWait r origins2 = WaitResult.timeout := by
  constructor
  · have hpi : slotPred r origins i = true := by
      unfold slotPred
      rw [hd]
      exact hp
    have hsat : satisfiedIndices r origins = [i] :=
      filter_range_singleton _ r.capacity i (slotAt_lt_capacity r i d hd) hpi
        (fun j _ hne => hothers j hne)
    have hws : waitScan r origins = [mkState d] := by
      unfold waitScan
      rw [hsat]
      simp [hd]
    rw [hws]
    rfl
  · intro origins2 hall
    have hsat : satisfiedIndices r origins2 = [] := by
      unfold satisfiedIndices
      rw [List.filter_eq_nil_iff]
      intro j _
      simp [hall j]
    have hws : waitScan r origins2 = [] := by
      unfold waitScan
      rw [hsat]
      rfl
    simp [timedWait, hws]

/-- Claim C3 witness: the spec's concrete scenario — A (group id 0) and B
(group id 1) registered, `signal` on A only: the scan returns exactly group
id 0; after the consumer resets A's latch, the bounded wait times out. -/
theorem wait_single_signalled_witness :
    (waitScan scenarioRegistry originsSignalled).map TriggerState.groupId = [0]
    ∧ timedWait scenarioRegistry originsReset = WaitResult.timeout := by
  have h := wait_single_signalled scenarioRegistry originsSignalled 0
    (activateSlotData 0 0 none) rfl rfl
    (by
      intro j hj
      match j with
      | 0 => exact absurd rfl hj
      | 1 => rfl
      | j + 2 => rfl)
  exact ⟨h.1, h.2 originsReset (by
    intro j
    match j with
    | 0 => rfl
    | 1 => rfl
    | j + 2 => rfl)⟩

/-- Claim C4 witness: in the concrete signalled scenario, the TriggerState
returned for A indeed stems from a valid slot whose predicate is true. -/
theorem wait_no_false_positive_witness :
    ∃ i d, slotAt scenarioRegistry i = some d
      ∧ evalPred originsSignalled d = true
      ∧ mkState (activateSlotData 0 0 none) = mkState d := by
  refine wait_no_false_positive scenarioRegistry originsSignalled
    (mkState (activateSlotData 0 0 none)) ?_
  have h : waitScan scenarioRegistry originsSignalled
      = [mkState (activateSlotData 0 0 none)] := rfl
  rw [h]
  exact List.mem_singleton_self _

/-! ## Registry teardown. -/

theorem get?_append_length {α : Type} (a : List α) (b : List α) :
    (a ++ b).get? a.length = b.get? 0 := by
  induction a with
  | nil => rfl
  | cons x xs ih => simpa using ih

theorem slotAt_append {σ : Type} (pre : List (Option (SlotData σ)))
    (x : Option (SlotData σ)) (rest : List (Option (SlotData σ))) :
    slotAt (⟨pre ++ x :: rest⟩ : Registry σ) pre.length = x := by
  unfold slotAt
  rw [show (⟨pre ++ x :: rest⟩ : Registry σ).slots = pre ++ x :: rest from rfl]
  rw [get?_append_length]
  cases x <;> rfl

theorem teardown_fold {σ : Type} :
    ∀ (rest pre : List (Option (SlotData σ))) (origins : List σ),
      (List.range' pre.length rest.length).foldl (fun p i => release p.1 p.2 i)
        ((⟨pre ++ rest⟩ : Registry σ), origins)
      = (⟨pre ++ List.replicate rest.length none⟩, hookFrom pre.length rest origins) := by
  intro rest
  induction rest with
  | nil => intro pre origins; simp [hookFrom]
  | cons x rest ih =>
    intro pre origins
    simp only [List.length_cons]
    rw [List.range'_succ, List.foldl_cons]
    have hstep : release (⟨pre ++ x :: rest⟩ : Registry σ) origins pre.length
        = (⟨pre ++ none :: rest⟩,
           match x with
           | some d => modifyAt (d.invalidationHook pre.length) d.origin origins
           | none => origins) := by
      unfold release
      rw [slotAt_append]
      cases x with
      | none => rfl
      | some d =>
        have hset : (pre ++ some d :: rest).set pre.length none = pre ++ none :: rest := by
          rw [set_append_length]
          rfl
        rw [hset]
    rw [hstep]
    have hpre : pre.length + 1 = (pre ++ [none]).length := by simp
    have happ : pre ++ none :: rest = (pre ++ [(none : Option (SlotData σ))]) ++ rest := by
      simp
    cases x with
    | none =>
      show (List.range' (pre.length + 1) rest.length).foldl (fun p i => release p.1 p.2 i)
          ((⟨pre ++ none :: rest⟩ : Registry σ), origins)
        = (⟨pre ++ List.replicate (rest.length + 1) none⟩,
           hookFrom pre.length (none :: rest) origins)
      rw [hpre, happ, ih]
      simp [hookFrom, List.replicate_succ]
    | some d =>
      show (List.range' (pre.length + 1) rest.length).foldl (fun p i => release p.1 p.2 i)
          ((⟨pre ++ none :: rest⟩ : Registry σ),
            modifyAt (d.invalidationHook pre.length) d.origin origins)
        = (⟨pre ++ List.replicate (rest.length + 1) none⟩,
           hookFrom pre.length (some d :: rest) origins)
      rw [happ]
      have hih := ih (pre ++ [(none : Option (SlotData σ))])
        (modifyAt (d.invalidationHook pre.length) d.origin origins)
      rw [hpre]
      rw [hih]
      simp [hookFrom, List.replicate_succ]

/-- Claim C7: Registry teardown performs `release` on every slot —
afterwards no valid slot remains (the whole table is free, so nothing
dangles when the storage is discarded), and the origin pool has had exactly
each still-valid slot's invalidation hook applied to its origin, in slot
order (so every origin clears its stored reference before the table is
destroyed). -/
theorem teardown_releases_all {σ : Type} (r : Registry σ) (origins : List σ) :
    (teardown r origins).1.slots = List.replicate r.capacity none
    ∧ (teardown r origins).2 = hookFrom 0 r.slots origins := by
  have h := teardown_fold r.slots [] origins
  simp only [List.nil_append, List.length_nil] at h
  unfold teardown Registry.capacity
  rw [List.range_eq_range']
  rw [show (⟨r.slots⟩ : Registry σ) = r from rfl] at h
  rw [h]
  exact ⟨rfl, rfl⟩

/-! ## attachToWaitset event dispatch. -/

/-- Claim C10: `attachToWaitset` with an event value that is not one of the
two enumerators returns success while acquiring nothing — the class and the
waitset are returned untouched; for the two enumerators it forwards exactly
the waitset's `acquireTrigger` outcome, storing the acquired trigger in the
event's member on success and leaving the class untouched on failure. -/
theorem attach_event_dispatch (selfIdx : Nat) (c : MyTriggerClass)
    (w : Registry MyTriggerClass) (event triggerId : Nat)
    (cb : Option (MyTriggerClass → MyTriggerClass)) :
    (2 ≤ event → attachToWaitset selfIdx c w event triggerId cb = (c, w, Except.ok ()))
    ∧ (∀ w2 h, acquire w (actionSlotData selfIdx triggerId cb) = (w2, Except.ok h) →
        attachToWaitset selfIdx c w PERFORMED_ACTION triggerId cb
          = ({ c with m_actionTrigger := some h }, w2, Except.ok ()))
    ∧ (∀ w2 e, acquire w (actionSlotData selfIdx triggerId cb) = (w2, Except.error e) →
        attachToWaitset selfIdx c w PERFORMED_ACTION triggerId cb = (c, w2, Except.error e))
    ∧ (∀ w2 h, acquire w (activateSlotData selfIdx triggerId cb) = (w2, Except.ok h) →
        attachToWaitset selfIdx c w ACTIVATE triggerId cb
          = ({ c with m_activateTrigger := some h }, w2, Except.ok ()))
    ∧ (∀ w2 e, acquire w (activateSlotData selfIdx triggerId cb) = (w2, Except.error e) →
        attachToWaitset selfIdx c w ACTIVATE triggerId cb = (c, w2, Except.error e)) := by
  refine ⟨?_, ?_, ?_, ?_, ?_⟩
  · intro he
    obtain ⟨k, rfl⟩ : ∃ k, event = k + 2 := ⟨event - 2, by omega⟩
    rfl
  · intro w2 h hacq
    show (match acquire w (actionSlotData selfIdx triggerId cb) with
      | (u, Except.ok i) => ({ c with m_actionTrigger := some i }, u, Except.ok ())
      | (u, Except.error e) => (c, u, Except.error e)) = _
    rw [hacq]
  · intro w2 e hacq
    show (match acquire w (actionSlotData selfIdx triggerId cb) with
      | (u, Except.ok i) => ({ c with m_actionTrigger := some i }, u, Except.ok ())
      | (u, Except.error e) => (c, u, Except.error e)) = _
    rw [hacq]
  · intro w2 h hacq
    show (match acquire w (activateSlotData selfIdx triggerId cb) with
      | (u, Except.ok i) => ({ c with m_activateTrigger := some i }, u, Except.ok ())
      | (u, Except.error e) => (c, u, Except.error e)) = _
    rw [hacq]
  · intro w2 e hacq
    show (match acquire w (activateSlotData selfIdx triggerId cb) with
      | (u, Except.ok i) => ({ c with m_activateTrigger := some i }, u, Except.ok ())
      | (u, Except.error e) => (c, u, Except.error e)) = _
    rw [hacq]

/-- Claim C10 witness: event value 5 is a success no-op on a fresh class and
waitset; attaching PERFORMED_ACTION to an empty capacity-1 waitset stores
handle 0 in `m_actionTrigger`; attaching ACTIVATE to a capacity-0 waitset
forwards the CapacityExceeded failure with the class untouched. -/
theorem attach_event_dispatch_witness :
    attachToWaitset 0 MyTriggerClass.init (emptyRegistry MyTriggerClass 1) 5 9 none
      = (MyTriggerClass.init, emptyRegistry MyTriggerClass 1, Except.ok ())
    ∧ attachToWaitset 0 MyTriggerClass.init (emptyRegistry MyTriggerClass 1)
        PERFORMED_ACTION 9 none
      = ({ MyTriggerClass.init with m_actionTrigger := some 0 },
         ⟨[some (actionSlotData 0 9 none)]⟩, Except.ok ())
    ∧ attachToWaitset 0 MyTriggerClass.init (emptyRegistry MyTriggerClass 0)
        ACTIVATE 9 none
      = (MyTriggerClass.init, emptyRegistry MyTriggerClass 0,
         Except.error WaitSetError.capacityExceeded) :=
  ⟨(attach_event_dispatch 0 MyTriggerClass.init (emptyRegistry MyTriggerClass 1)
      5 9 none).1 (by omega),
   (attach_event_dispatch 0 MyTriggerClass.init (emptyRegistry MyTriggerClass 1)
      PERFORMED_ACTION 9 none).2.1 ⟨[some (actionSlotData 0 9 none)]⟩ 0 rfl,
   (attach_event_dispatch 0 MyTriggerClass.init (emptyRegistry MyTriggerClass 0)
      ACTIVATE 9 none).2.2.2.2 (emptyRegistry MyTriggerClass 0)
      WaitSetError.capacityExceeded rfl⟩

/-- Claim C9: `MyTriggerClass::reset` clears both event latches at once —
afterwards `hasPerformedAction()` and `isActivated()` both return false,
whatever the latches were before (so the consumer's dispatch-then-reset of
one event also clears the other event's not-yet-dispatched latch); the
activation code and the stored triggers are untouched. -/
theorem reset_clears_both_latches (c : MyTriggerClass) :
    (c.reset).hasPerformedAction = false
    ∧ (c.reset).isActivated = false
    ∧ (c.reset).m_activationCode = c.m_activationCode
    ∧ (c.reset).m_actionTrigger = c.m_actionTrigger
    ∧ (c.reset).m_activateTrigger = c.m_activateTrigger := by
  refine ⟨rfl, rfl, rfl, rfl, rfl⟩

end IceoryxWaitset
